import Mathlib

/-!
Verification of the task-tracking CRUD service (schema, four handlers, tests)
against its natural-language specification.  The data model and the handler
bodies are embedded shallowly: the persistence table becomes a list of rows
plus an auto-increment counter and a discrete statement clock; each handler
becomes a state-passing function.  Handlers present in the sources are
translated from them (`createTask` from create_task.ts, `updateTask` from
update_task.ts, `deleteTask` from the unnamed delete handler file,
`createTaskInputSchema` from schema.ts); handlers the repository only tests
or describes are modelled from the spec and say so in their doc comments.
-/

namespace TodoApp

/-- A Task row, from taskSchema in schema.ts: id, title, nullable description,
completed flag, and two timestamps.  Timestamps are modelled as naturals on a
discrete clock; a null description is `none`. -/
structure Task where
  id : Nat
  title : String
  description : Option String
  completed : Bool
  created_at : Nat
  updated_at : Nat
deriving Repr, DecidableEq

/-- Parsed create input, from createTaskInputSchema in schema.ts:
a title and an optional-or-null description.  `none` is an absent field,
`some none` an explicit null, `some (some s)` a string value. -/
structure CreateTaskInput where
  title : String
  description : Option (Option String)
deriving Repr, DecidableEq

/-- Update input, from updateTaskInputSchema in schema.ts. -/
structure UpdateTaskInput where
  id : Nat
  completed : Bool
deriving Repr, DecidableEq

/-- Delete input, from deleteTaskInputSchema in schema.ts. -/
structure DeleteTaskInput where
  id : Nat
deriving Repr, DecidableEq

/-- Delete result shape: the handler returns an object with a success flag. -/
structure DeleteResult where
  success : Bool
deriving Repr, DecidableEq

/-- The persistence state: the single tasks table, the storage-assigned
auto-increment counter, and the current time of the statement clock.  The
clock advances by one after each storage statement, so two statements never
share a timestamp. -/
structure DBState where
  tasks : List Task
  nextId : Nat
  now : Nat
deriving Repr, DecidableEq

/-- The empty database at clock 1 with ids starting at 1. -/
def initState : DBState := ⟨[], 1, 1⟩

/-- The `input.description || null` coercion in create_task.ts: a present
non-empty string is kept; an absent field, an explicit null, and the empty
string (all falsy in the source language) are stored as null. -/
def coerceDescription : Option (Option String) → Option String
  | some (some s) => if s = "" then none else some s
  | _ => none

/-- createTask, from create_task.ts: inserts one row with the given title,
the coerced description, completed = false, and both timestamps set by the
storage default to the current time; returns the persisted row. -/
def createTask (input : CreateTaskInput) (s : DBState) : Task × DBState :=
  let t : Task :=
    { id := s.nextId
      title := input.title
      description := coerceDescription input.description
      completed := false
      created_at := s.now
      updated_at := s.now }
  (t, ⟨s.tasks ++ [t], s.nextId + 1, s.now + 1⟩)

/-- Error taxonomy from schema.ts and the handler tests: a ValidationError
for malformed or missing required input, a NotFoundError carrying the missing
id for an update whose id matches no row. -/
inductive HandlerError where
  | validationError (msg : String)
  | notFoundError (id : Nat)
deriving Repr, DecidableEq

/-- A raw (unvalidated) create request body: the title field may be absent
(`none`) or a string; the description may be absent, null, or a string. -/
structure RawCreateTaskInput where
  title : Option String
  description : Option (Option String)
deriving Repr, DecidableEq

/-- createTaskInputSchema, from schema.ts: the title must be a present string
of length at least 1 (message "Title cannot be empty"); the description may
be a string, null, or omitted and passes through unchanged. -/
def createTaskInputSchema (raw : RawCreateTaskInput) :
    Except HandlerError CreateTaskInput :=
  match raw.title with
  | none => .error (.validationError "Required")
  | some t =>
    if t.length < 1 then .error (.validationError "Title cannot be empty")
    else .ok ⟨t, raw.description⟩

/-- The create route, per the request flow of the spec: the body is checked
by createTaskInputSchema before the handler runs, so a validation failure
returns the error with the store untouched; valid input reaches createTask. -/
def createTaskRoute (raw : RawCreateTaskInput) (s : DBState) :
    Except HandlerError Task × DBState :=
  match createTaskInputSchema raw with
  | .error e => (.error e, s)
  | .ok input => (.ok (createTask input s).1, (createTask input s).2)

/-- updateTask, from update_task.ts.  That file is an unimplemented
placeholder: it never consults the store and resolves with a fabricated Task
(title "Placeholder Task", null description, fresh dates) echoing the input
id and completed flag.  The store is left untouched. -/
def updateTask (input : UpdateTaskInput) (s : DBState) : Task × DBState :=
  (⟨input.id, "Placeholder Task", none, input.completed, s.now, s.now⟩,
   { s with now := s.now + 1 })

/-- deleteTask, from the unnamed delete handler source file.  That file is an
unimplemented placeholder: it never consults the store and always resolves
with success = true.  The store is left untouched. -/
def deleteTask (_input : DeleteTaskInput) (s : DBState) : DeleteResult × DBState :=
  (⟨true⟩, { s with now := s.now + 1 })

/-- Modelled from the spec: the real update handler (the variant the spec and
update_task.test.ts describe, absent from the sources) locates the row with
the given id; when none exists it fails with a NotFoundError naming the id;
otherwise it sets completed to the supplied value and updated_at to the
current time, leaves title, description, created_at and every other row
unchanged, and returns the updated row. -/
def updateTaskSpec (input : UpdateTaskInput) (s : DBState) :
    Except HandlerError Task × DBState :=
  match s.tasks.find? (fun t => t.id == input.id) with
  | none => (.error (.notFoundError input.id), { s with now := s.now + 1 })
  | some t =>
    (.ok { t with completed := input.completed, updated_at := s.now },
     ⟨s.tasks.map (fun u =>
        if u.id = input.id
        then { u with completed := input.completed, updated_at := s.now }
        else u),
      s.nextId, s.now + 1⟩)

/-- Modelled from the spec: the real delete handler (the variant the spec and
delete_task.test.ts describe, absent from the sources) removes the row with
the given id when present and reports success = true exactly when a row was
removed, success = false otherwise — never an error. -/
def deleteTaskSpec (input : DeleteTaskInput) (s : DBState) :
    DeleteResult × DBState :=
  (⟨s.tasks.any (fun t => t.id == input.id)⟩,
   ⟨s.tasks.filter (fun t => t.id != input.id), s.nextId, s.now + 1⟩)

/-- Descending created_at order on rows: a may precede b when b's created_at
is at most a's. -/
def createdAtDesc (a b : Task) : Prop := b.created_at ≤ a.created_at

instance : DecidableRel createdAtDesc := fun a b =>
  inferInstanceAs (Decidable (b.created_at ≤ a.created_at))

instance : IsTotal Task createdAtDesc :=
  ⟨fun a b => Nat.le_total b.created_at a.created_at⟩

instance : IsTrans Task createdAtDesc :=
  ⟨fun _ _ _ hab hbc => le_trans hbc hab⟩

/-- Modelled from the spec: the list handler (get_tasks.ts, absent from the
sources except its tests) returns every stored row ordered by created_at
descending, ties in unspecified relative order, reading the store and
mutating nothing; an empty store yields the empty sequence, never an error. -/
def getTasks (s : DBState) : List Task :=
  List.insertionSort createdAtDesc s.tasks

/-- One client request against the service: a create (raw body, validated
first), an update, a delete, or a list.  Update and delete are the
spec-modelled real handlers. -/
inductive Op where
  | create (raw : RawCreateTaskInput)
  | update (input : UpdateTaskInput)
  | delete (input : DeleteTaskInput)
  | list
deriving Repr

/-- Running one operation: the Task values it returned to the client (the
created row, the updated row, the listed rows; errors and delete results
carry no Task) and the next state. -/
def applyOp : Op → DBState → List Task × DBState
  | .create raw, s =>
    match createTaskRoute raw s with
    | (.ok t, s2) => ([t], s2)
    | (.error _, s2) => ([], s2)
  | .update input, s =>
    match updateTaskSpec input s with
    | (.ok t, s2) => ([t], s2)
    | (.error _, s2) => ([], s2)
  | .delete input, s => ([], (deleteTaskSpec input s).2)
  | .list, s => (getTasks s, s)

/-- The state after a sequence of operations. -/
def runOps : List Op → DBState → DBState
  | [], s => s
  | op :: ops, s => runOps ops (applyOp op s).2

/-- Every Task value any operation of the sequence returned to the client. -/
def runOutputs : List Op → DBState → List Task
  | [], _ => []
  | op :: ops, s => (applyOp op s).1 ++ runOutputs ops (applyOp op s).2

/-- The ids of the rows returned by the create operations of the sequence,
in execution order. -/
def runCreatedIds : List Op → DBState → List Nat
  | [], _ => []
  | .create raw :: ops, s =>
    (match createTaskRoute raw s with
     | (.ok t, s2) => t.id :: runCreatedIds ops s2
     | (.error _, s2) => runCreatedIds ops s2)
  | op :: ops, s => runCreatedIds ops (applyOp op s).2

/-- A store used as a concrete counterexample state: one row, id 1, titled
"Test Task", not completed, created and updated at time 10; clock at 20. -/
def sampleTask : Task := ⟨1, "Test Task", some "A test task", false, 10, 10⟩

/-- The store holding sampleTask alone. -/
def sampleState : DBState := ⟨[sampleTask], 2, 20⟩

/-- The clock discipline of the store: every row was created no later than it
was last updated, and every timestamp lies strictly before the current time
(each storage statement advances the clock after stamping). -/
def TimeInv (s : DBState) : Prop :=
  ∀ t ∈ s.tasks, t.created_at ≤ t.updated_at ∧ t.updated_at < s.now

/-- Claim C4: createTask inserts exactly one new Task and returns it with
completed = false and created_at = updated_at. -/
theorem createTask_inserts_one_completed_false_timestamps_equal
    (input : CreateTaskInput) (s : DBState) :
    (createTask input s).2.tasks = s.tasks ++ [(createTask input s).1] ∧
    (createTask input s).1.completed = false ∧
    (createTask input s).1.created_at = (createTask input s).1.updated_at := by
  refine ⟨rfl, rfl, rfl⟩

/-- Claim C1, refuted by the code: the updateTask of update_task.ts is an
unimplemented placeholder.  On the empty store, where no row has id 999, it
does not fail with a NotFoundError: it resolves with a fabricated Task titled
"Placeholder Task" echoing the input, and its own tests expect a thrown
"Task with id 999 not found" instead. -/
theorem updateTask_fabricates_on_missing_id :
    (updateTask ⟨999, true⟩ initState).1 =
      ⟨999, "Placeholder Task", none, true, 1, 1⟩ ∧
    (updateTask ⟨999, true⟩ initState).2.tasks = [] :=
  ⟨rfl, rfl⟩

/-- Claim C2, refuted by the code: the deleteTask of the unnamed delete
handler file is an unimplemented placeholder.  On the empty store, where no
row has id 99999 and hence no row is removed, it still reports
success = true, while its own tests expect success = false there. -/
theorem deleteTask_reports_success_without_removal :
    (deleteTask ⟨99999⟩ initState).1.success = true ∧
    (deleteTask ⟨99999⟩ initState).2.tasks = [] :=
  ⟨rfl, rfl⟩

/-- Claim C3, refuted by the code: on a store holding exactly sampleTask
(id 1, not completed, updated at time 10), updating id 1 to completed = true
leaves the stored row entirely unchanged — completed stays false and
updated_at stays 10, so it does not strictly increase — and the returned
Task carries the fabricated title "Placeholder Task" instead of the stored
"Test Task". -/
theorem updateTask_leaves_store_unchanged :
    (updateTask ⟨1, true⟩ sampleState).2.tasks = [sampleTask] ∧
    sampleTask.completed = false ∧
    sampleTask.updated_at = 10 ∧
    (updateTask ⟨1, true⟩ sampleState).1.title = "Placeholder Task" ∧
    sampleTask.title = "Test Task" :=
  ⟨rfl, rfl, rfl, rfl, rfl⟩

/-- Claim C5: a create request whose title is absent or the empty string is
rejected by createTaskInputSchema with a ValidationError before the handler
runs, and the store is returned untouched — no row is inserted. -/
theorem createTaskRoute_rejects_empty_or_absent_title
    (raw : RawCreateTaskInput) (s : DBState)
    (h : raw.title = none ∨ raw.title = some "") :
    ∃ msg, createTaskRoute raw s =
      (.error (.validationError msg), s) := by
  rcases h with h | h
  · exact ⟨"Required", by simp [createTaskRoute, createTaskInputSchema, h]⟩
  · exact ⟨"Title cannot be empty",
      by simp [createTaskRoute, createTaskInputSchema, h]⟩

/-- Witness for the C5 theorem at the concrete absent-title request. -/
theorem createTaskRoute_rejects_empty_or_absent_title_witness :
    ∃ msg, createTaskRoute ⟨none, none⟩ initState =
      (.error (.validationError msg), initState) :=
  createTaskRoute_rejects_empty_or_absent_title ⟨none, none⟩ initState
    (Or.inl rfl)

/-- Claim C10: the description coercion of create_task.ts maps the empty
string, like an absent field and an explicit null, to a stored null, so no
Task a create returns ever holds an empty-string description. -/
theorem createTask_empty_description_becomes_null
    (input : CreateTaskInput) (s : DBState) :
    (input.description = some (some "") →
      (createTask input s).1.description = none) ∧
    (createTask input s).1.description ≠ some "" := by
  constructor
  · intro h
    simp [createTask, coerceDescription, h]
  · simp only [createTask, coerceDescription]
    match input.description with
    | some (some str) =>
      by_cases h : str = "" <;> simp [h]
    | some none => simp
    | none => simp

/-- Witness for the C10 theorem at a concrete empty-string-description
request. -/
theorem createTask_empty_description_becomes_null_witness :
    (createTask ⟨"Buy milk", some (some "")⟩ initState).1.description = none ∧
    (createTask ⟨"Buy milk", some (some "")⟩ initState).1.description ≠
      some "" :=
  ⟨(createTask_empty_description_becomes_null ⟨"Buy milk", some (some "")⟩
      initState).1 rfl,
   (createTask_empty_description_becomes_null ⟨"Buy milk", some (some "")⟩
      initState).2⟩

/-- A successful create route call returns the row built by createTask: its
id is the auto-increment counter, both timestamps are the current time, and
the next state appends the row, bumps the counter, and advances the clock. -/
theorem createTaskRoute_ok {raw : RawCreateTaskInput} {s : DBState}
    {t : Task} {s2 : DBState}
    (h : createTaskRoute raw s = (.ok t, s2)) :
    t.id = s.nextId ∧ t.created_at = s.now ∧ t.updated_at = s.now ∧
    s2 = ⟨s.tasks ++ [t], s.nextId + 1, s.now + 1⟩ := by
  unfold createTaskRoute at h
  cases hs : createTaskInputSchema raw with
  | error e => rw [hs] at h; simp at h
  | ok input =>
    rw [hs] at h
    simp only [Prod.mk.injEq, Except.ok.injEq] at h
    obtain ⟨h1, h2⟩ := h
    subst h1; subst h2
    exact ⟨rfl, rfl, rfl, rfl⟩

/-- A failed create route call leaves the state untouched. -/
theorem createTaskRoute_error {raw : RawCreateTaskInput} {s : DBState}
    {e : HandlerError} {s2 : DBState}
    (h : createTaskRoute raw s = (.error e, s2)) : s2 = s := by
  unfold createTaskRoute at h
  cases hs : createTaskInputSchema raw with
  | error e2 => rw [hs] at h; simp only [Prod.mk.injEq] at h; exact h.2.symm
  | ok input => rw [hs] at h; simp at h

/-- Claim C6: getTasks returns a sequence sorted by created_at descending
that is a permutation of the stored rows — hence every stored Task, ties in
some relative order — and the empty store yields the empty sequence. -/
theorem getTasks_sorted_desc_and_complete (s : DBState) :
    List.Sorted createdAtDesc (getTasks s) ∧
    (getTasks s).Perm s.tasks ∧
    (s.tasks = [] → getTasks s = []) := by
  refine ⟨List.sorted_insertionSort createdAtDesc s.tasks,
    List.perm_insertionSort createdAtDesc s.tasks, ?_⟩
  intro h
  simp [getTasks, h, List.insertionSort]

/-- Witness for the C6 theorem at the empty store. -/
theorem getTasks_sorted_desc_and_complete_witness :
    List.Sorted createdAtDesc (getTasks initState) ∧ getTasks initState = [] :=
  ⟨(getTasks_sorted_desc_and_complete initState).1,
   (getTasks_sorted_desc_and_complete initState).2.2 rfl⟩

/-- Claim C8: creating a task with an explicit null description and then
listing yields that task, and its description is null — not the empty string
and not an absent field. -/
theorem create_null_description_roundtrip (title : String) (s : DBState) :
    (createTask ⟨title, some none⟩ s).1 ∈
      getTasks (createTask ⟨title, some none⟩ s).2 ∧
    (createTask ⟨title, some none⟩ s).1.description = none := by
  constructor
  · simp [getTasks, createTask]
  · rfl

/-- Witness for the C8 theorem at a concrete request on the empty store. -/
theorem create_null_description_roundtrip_witness :
    (createTask ⟨"Buy milk", some none⟩ initState).1 ∈
      getTasks (createTask ⟨"Buy milk", some none⟩ initState).2 ∧
    (createTask ⟨"Buy milk", some none⟩ initState).1.description = none :=
  create_null_description_roundtrip "Buy milk" initState

/-- updateTaskSpec never changes the auto-increment counter. -/
theorem updateTaskSpec_nextId (input : UpdateTaskInput) (s : DBState) :
    ((updateTaskSpec input s).2).nextId = s.nextId := by
  unfold updateTaskSpec
  split <;> rfl

/-- The auto-increment counter never decreases across one operation. -/
theorem applyOp_nextId_mono (op : Op) (s : DBState) :
    s.nextId ≤ ((applyOp op s).2).nextId := by
  cases op with
  | create raw =>
    cases hr : createTaskRoute raw s with
    | mk r s2 =>
      cases r with
      | ok t =>
        have h := (createTaskRoute_ok hr).2.2.2
        simp only [applyOp, hr, h]
        omega
      | error e =>
        have h := createTaskRoute_error hr
        simp only [applyOp, hr, h]
        omega
  | update input =>
    cases hu : updateTaskSpec input s with
    | mk r s2 =>
      have h := updateTaskSpec_nextId input s
      rw [hu] at h
      simp only at h
      cases r with
      | ok t => simp only [applyOp, hu]; omega
      | error e => simp only [applyOp, hu]; omega
  | delete input => simp [applyOp, deleteTaskSpec]
  | list => simp [applyOp]

/-- Along any run, every id handed out by a create is at least the starting
value of the auto-increment counter. -/
theorem runCreatedIds_ge (ops : List Op) :
    ∀ (s : DBState), ∀ i ∈ runCreatedIds ops s, s.nextId ≤ i := by
  induction ops with
  | nil => intro s i hi; simp [runCreatedIds] at hi
  | cons op ops ih =>
    intro s i hi
    cases op with
    | create raw =>
      cases hr : createTaskRoute raw s with
      | mk r s2 =>
        cases r with
        | ok t =>
          simp only [runCreatedIds, hr] at hi
          obtain ⟨hid, _, _, hs2⟩ := createTaskRoute_ok hr
          rcases List.mem_cons.1 hi with hi | hi
          · omega
          · have h2 := ih s2 i hi
            rw [hs2] at h2
            simp at h2
            omega
        | error e =>
          simp only [runCreatedIds, hr] at hi
          have hs2 := createTaskRoute_error hr
          rw [hs2] at hi
          exact ih s i hi
    | update input =>
      simp only [runCreatedIds] at hi
      have h := ih _ i hi
      have h2 := applyOp_nextId_mono (.update input) s
      omega
    | delete input =>
      simp only [runCreatedIds] at hi
      have h := ih _ i hi
      have h2 := applyOp_nextId_mono (.delete input) s
      omega
    | list =>
      simp only [runCreatedIds] at hi
      have h := ih _ i hi
      have h2 := applyOp_nextId_mono .list s
      omega

/-- Along any run, the created ids appear in strictly increasing order. -/
theorem runCreatedIds_pairwise_lt (ops : List Op) :
    ∀ (s : DBState), List.Pairwise (· < ·) (runCreatedIds ops s) := by
  induction ops with
  | nil => intro s; simp [runCreatedIds]
  | cons op ops ih =>
    intro s
    cases op with
    | create raw =>
      cases hr : createTaskRoute raw s with
      | mk r s2 =>
        cases r with
        | ok t =>
          simp only [runCreatedIds, hr]
          obtain ⟨hid, _, _, hs2⟩ := createTaskRoute_ok hr
          refine List.Pairwise.cons ?_ (ih s2)
          intro j hj
          have h := runCreatedIds_ge ops s2 j hj
          rw [hs2] at h
          simp at h
          omega
        | error e =>
          simp only [runCreatedIds, hr]
          exact ih s2
    | update input => simp only [runCreatedIds]; exact ih _
    | delete input => simp only [runCreatedIds]; exact ih _
    | list => simp only [runCreatedIds]; exact ih _

/-- Claim C7: the rows returned by two consecutive creates carry distinct
ids, and more generally a run never hands the same id out twice: the created
ids of any operation sequence contain no duplicate. -/
theorem createTask_ids_never_reused :
    (∀ (i1 i2 : CreateTaskInput) (s : DBState),
      (createTask i1 s).1.id ≠
        (createTask i2 (createTask i1 s).2).1.id) ∧
    ∀ (ops : List Op) (s : DBState), (runCreatedIds ops s).Nodup := by
  constructor
  · intro i1 i2 s
    simp [createTask]
  · intro ops s
    exact (runCreatedIds_pairwise_lt ops s).imp (fun h => Nat.ne_of_lt h)

/-- Witness for the C7 theorem at two concrete creates on the empty store. -/
theorem createTask_ids_never_reused_witness :
    (createTask ⟨"a", none⟩ initState).1.id ≠
      (createTask ⟨"b", none⟩ (createTask ⟨"a", none⟩ initState).2).1.id :=
  createTask_ids_never_reused.1 ⟨"a", none⟩ ⟨"b", none⟩ initState

/-- One operation preserves the clock discipline, and every Task value it
returns to the client satisfies created_at ≤ updated_at. -/
theorem applyOp_timeInv (op : Op) (s : DBState) (hs : TimeInv s) :
    TimeInv ((applyOp op s).2) ∧
    ∀ t ∈ (applyOp op s).1, t.created_at ≤ t.updated_at := by
  cases op with
  | create raw =>
    cases hr : createTaskRoute raw s with
    | mk r s2 =>
      cases r with
      | ok t =>
        obtain ⟨hid, hc, hu, hs2⟩ := createTaskRoute_ok hr
        subst hs2
        simp only [applyOp, hr]
        constructor
        · intro u hu2
          simp only [TimeInv] at hs ⊢
          simp only [List.mem_append, List.mem_singleton] at hu2
          rcases hu2 with hu2 | hu2
          · have h3 := hs u hu2
            exact ⟨h3.1, by omega⟩
          · subst hu2
            exact ⟨by omega, by omega⟩
        · intro u hu2
          simp only [List.mem_singleton] at hu2
          subst hu2
          omega
      | error e =>
        have hs2 := createTaskRoute_error hr
        subst hs2
        simp only [applyOp, hr]
        exact ⟨hs, by simp⟩
  | update input =>
    cases hf : s.tasks.find? (fun t => t.id == input.id) with
    | none =>
      simp only [applyOp, updateTaskSpec, hf]
      constructor
      · intro u hu2
        have h3 := hs u hu2
        exact ⟨h3.1, show u.updated_at < s.now + 1 by omega⟩
      · simp
    | some t =>
      have htm : t ∈ s.tasks := List.mem_of_find?_eq_some hf
      have h3 := hs t htm
      simp only [applyOp, updateTaskSpec, hf]
      constructor
      · intro u hu2
        simp only [List.mem_map] at hu2
        obtain ⟨v, hv, hvu⟩ := hu2
        have h4 := hs v hv
        by_cases hvi : v.id = input.id
        · simp only [hvi, if_pos] at hvu
          subst hvu
          exact ⟨show v.created_at ≤ s.now by omega,
            show s.now < s.now + 1 by omega⟩
        · rw [if_neg hvi] at hvu
          subst hvu
          exact ⟨h4.1, show v.updated_at < s.now + 1 by omega⟩
      · intro u hu2
        simp only [List.mem_singleton] at hu2
        subst hu2
        show t.created_at ≤ s.now
        omega
  | delete input =>
    simp only [applyOp, deleteTaskSpec]
    constructor
    · intro u hu2
      simp only [List.mem_filter] at hu2
      have h3 := hs u hu2.1
      exact ⟨h3.1, show u.updated_at < s.now + 1 by omega⟩
    · simp
  | list =>
    simp only [applyOp]
    refine ⟨hs, ?_⟩
    intro t ht
    simp only [getTasks, List.mem_insertionSort] at ht
    exact (hs t ht).1

/-- A run from a state obeying the clock discipline keeps obeying it, and
every Task value any of its operations returns satisfies
created_at ≤ updated_at. -/
theorem runOps_timeInv (ops : List Op) :
    ∀ (s : DBState), TimeInv s →
      TimeInv (runOps ops s) ∧
      ∀ t ∈ runOutputs ops s, t.created_at ≤ t.updated_at := by
  induction ops with
  | nil => intro s hs; exact ⟨hs, by simp [runOutputs]⟩
  | cons op ops ih =>
    intro s hs
    obtain ⟨h1, h2⟩ := applyOp_timeInv op s hs
    obtain ⟨h3, h4⟩ := ih _ h1
    refine ⟨h3, ?_⟩
    intro t ht
    simp only [runOutputs, List.mem_append] at ht
    rcases ht with ht | ht
    · exact h2 t ht
    · exact h4 t ht

/-- Claim C9: after every sequence of create, update, delete and list
operations from the empty store, every stored Task satisfies
created_at ≤ updated_at, and every Task any operation returned satisfies it
as well. -/
theorem created_le_updated_always (ops : List Op) :
    (∀ t ∈ (runOps ops initState).tasks, t.created_at ≤ t.updated_at) ∧
    ∀ t ∈ runOutputs ops initState, t.created_at ≤ t.updated_at := by
  have h0 : TimeInv initState := by intro t ht; simp [initState] at ht
  obtain ⟨h1, h2⟩ := runOps_timeInv ops initState h0
  exact ⟨fun t ht => (h1 t ht).1, h2⟩

/-- Witness for the C9 theorem: the row returned by one concrete create on
the empty store satisfies created_at ≤ updated_at. -/
theorem created_le_updated_always_witness :
    (⟨1, "a", none, false, 1, 1⟩ : Task).created_at ≤
      (⟨1, "a", none, false, 1, 1⟩ : Task).updated_at :=
  (created_le_updated_always [Op.create ⟨some "a", none⟩]).2
    ⟨1, "a", none, false, 1, 1⟩ (by decide)

end TodoApp
